import Mathlib

/-!
Verification of the cache client layer in `redis_cache/client.py`
(django-redis fork): the versioned key-value facade (`DefaultClient`),
its error wrapping, and the sharded routing client (`ShardClient`).

The embedding models:
* the store a connection talks to as an association list from versioned
  keys to (value, optional TTL) pairs — the key-value collaborator of the
  spec (GET/SET/SETEX/DEL/EXISTS/TTL/KEYS/MGET/FLUSHDB);
* a connection as that store plus, per primitive command, whether the
  transport raises `ConnectionError` when that command is issued;
* each client method as a function threading the connection state and
  returning `Except PyErr`, with the `try/except ConnectionError` blocks
  placed exactly where the source places them;
* the value codec (pickle/unpickle) as the identity on `Int` values — the
  spec treats it as an opaque encode/decode pair.
-/

/-- The Python-level outcomes the client code can raise. -/
inductive PyErr where
  | connectionError
  | connectionInterrumped
  | valueError
  | typeError
  | improperlyConfigured
  | nameError
  | attributeError
  deriving DecidableEq, Repr

/-- A fully qualified versioned key. `DefaultClient.make_key` wraps
`backend.make_key` output in `CacheKey`; the backend is an external
collaborator, so the key layout `"<prefix>:<version>:<rawKey>"` is
modelled from the spec (section 6 wire format) as a structure whose
serialization is injective, which is exactly the invariant the spec
states for `VersionedKey`. -/
structure VKey where
  pfx : String
  version : Int
  raw : String
  deriving DecidableEq, Repr

/-- The backend configuration the client reads: key namespace,
`default_timeout` and default `version` (Django cache backend,
modelled from the spec). -/
structure Backend where
  pfx : String
  default_timeout : Int
  version : Int

/-- `DefaultClient.make_key`: builds the versioned key, substituting the
backend default version when none is given; idempotent on already-made
keys (the `CacheKey` check), which the made-key-typed signature models. -/
def Backend.make_key (b : Backend) (key : String) (version : Option Int) : VKey :=
  ⟨b.pfx, version.getD b.version, key⟩

/-- One stored entry: value and optional TTL in seconds (`none` = no expiry). -/
abbrev Store := List (VKey × Int × Option Int)

def Store.lookup : Store → VKey → Option (Int × Option Int)
  | [], _ => none
  | (k1, v, t) :: s, k => if k = k1 then some (v, t) else Store.lookup s k

def Store.erase : Store → VKey → Store
  | [], _ => []
  | (k1, v, t) :: s, k => if k = k1 then Store.erase s k else (k1, v, t) :: Store.erase s k

/-- Redis SET/SETEX semantics: overwrite the entry and its TTL. -/
def Store.insert (s : Store) (k : VKey) (v : Int) (t : Option Int) : Store :=
  (k, v, t) :: s.erase k

/-- The primitive commands of the connection collaborator. -/
inductive RedisOp where
  | rget | rset | rsetex | rexists | rttl | rdel | rflush | rmget | rkeys
  deriving DecidableEq, Repr

/-- A connection: its store plus which primitive commands currently hit a
transport-level `ConnectionError`. -/
structure Conn where
  store : Store
  failing : RedisOp → Bool

/-- A healthy connection over a given store. -/
def Conn.ok (st : Store) : Conn := ⟨st, fun _ => false⟩

def primGet (k : VKey) (c : Conn) : Except PyErr (Option Int) × Conn :=
  if c.failing .rget then (.error .connectionError, c)
  else (.ok ((c.store.lookup k).map Prod.fst), c)

def primSet (k : VKey) (v : Int) (c : Conn) : Except PyErr Bool × Conn :=
  if c.failing .rset then (.error .connectionError, c)
  else (.ok true, { c with store := c.store.insert k v none })

def primSetex (k : VKey) (v : Int) (t : Int) (c : Conn) : Except PyErr Bool × Conn :=
  if c.failing .rsetex then (.error .connectionError, c)
  else (.ok true, { c with store := c.store.insert k v (some t) })

def primExists (k : VKey) (c : Conn) : Except PyErr Bool × Conn :=
  if c.failing .rexists then (.error .connectionError, c)
  else (.ok (c.store.lookup k).isSome, c)

/-- `client.ttl`: the redis-py client of this era returns `None` both for a
missing key and for a key with no expiry. -/
def primTtl (k : VKey) (c : Conn) : Except PyErr (Option Int) × Conn :=
  if c.failing .rttl then (.error .connectionError, c)
  else (.ok ((c.store.lookup k).bind Prod.snd), c)

def primDel (ks : List VKey) (c : Conn) : Except PyErr Unit × Conn :=
  if c.failing .rdel then (.error .connectionError, c)
  else (.ok (), { c with store := ks.foldl Store.erase c.store })

def primFlush (c : Conn) : Except PyErr Unit × Conn :=
  if c.failing .rflush then (.error .connectionError, c)
  else (.ok (), { c with store := [] })

def primMget (ks : List VKey) (c : Conn) : Except PyErr (List (Option Int)) × Conn :=
  if c.failing .rmget then (.error .connectionError, c)
  else (.ok (ks.map fun k => (c.store.lookup k).map Prod.fst), c)

/-- `client.keys(pattern)`: glob matching is performed by the external
store (spec section 6), modelled as a predicate over stored keys. -/
def primKeys (p : VKey → Bool) (c : Conn) : Except PyErr (List VKey) × Conn :=
  if c.failing .rkeys then (.error .connectionError, c)
  else (.ok ((c.store.map Prod.fst).filter p), c)

/-- The `except ConnectionError: raise ConnectionInterrumped(...)` blocks. -/
def wrapErr : PyErr → PyErr
  | .connectionError => .connectionInterrumped
  | e => e

def wrap {α : Type} : Except PyErr α × Conn → Except PyErr α × Conn
  | (.error e, c) => (.error (wrapErr e), c)
  | r => r

/-- Sequencing with Python exception propagation: an error aborts the rest
of the method body; state mutated so far is kept. -/
def step {α β : Type} (r : Except PyErr α × Conn)
    (f : α → Conn → Except PyErr β × Conn) : Except PyErr β × Conn :=
  match r with
  | (.error e, c) => (.error e, c)
  | (.ok a, c) => f a c

/-- `DefaultClient.set` body on an already-made key (the source's `set`
after its idempotent `make_key`): default-timeout substitution, then
SETEX when the effective timeout is positive, plain SET otherwise, the
whole command under the ConnectionError wrapper. -/
def set_made (b : Backend) (k : VKey) (v : Int) (timeout : Option Int) (c : Conn) :
    Except PyErr Bool × Conn :=
  let t := timeout.getD b.default_timeout
  wrap (if 0 < t then primSetex k v t c else primSet k v c)

/-- `DefaultClient.get` body on an already-made key: wrapped GET, `default`
when the value is absent, decoded value otherwise. -/
def getMade (k : VKey) (default : Option Int) (c : Conn) :
    Except PyErr (Option Int) × Conn :=
  step (wrap (primGet k c)) fun v c1 =>
    match v with
    | none => (.ok default, c1)
    | some x => (.ok (some x), c1)

/-- `DefaultClient.delete` body on an already-made key. -/
def delete_made (k : VKey) (c : Conn) : Except PyErr Unit × Conn :=
  wrap (primDel [k] c)

def DefaultClient.set (b : Backend) (key : String) (v : Int)
    (timeout version : Option Int) (c : Conn) : Except PyErr Bool × Conn :=
  set_made b (b.make_key key version) v timeout c

def DefaultClient.get (b : Backend) (key : String) (default : Option Int)
    (version : Option Int) (c : Conn) : Except PyErr (Option Int) × Conn :=
  getMade (b.make_key key version) default c

def DefaultClient.delete (b : Backend) (key : String) (version : Option Int)
    (c : Conn) : Except PyErr Unit × Conn :=
  delete_made (b.make_key key version) c

/-- `DefaultClient.add`: wrapped EXISTS check, `False` when present,
otherwise delegate to `set` (line 151-168). -/
def DefaultClient.add (b : Backend) (key : String) (v : Int)
    (timeout version : Option Int) (c : Conn) : Except PyErr Bool × Conn :=
  let k := b.make_key key version
  step (wrap (primExists k c)) fun ex c1 =>
    if ex then (.ok false, c1) else set_made b k v timeout c1

/-- `DefaultClient.incr_version` (lines 119-149): get value at the old
versioned key, query its TTL, not-found check, re-set under the new
version with `timeout=ttl`, delete the old key, return the new version. -/
def DefaultClient.incr_version (b : Backend) (key : String) (delta : Int)
    (version : Option Int) (c : Conn) : Except PyErr Int × Conn :=
  let v := version.getD b.version
  let okey := b.make_key key (some v)
  step (getMade okey none c) fun value c1 =>
    step (wrap (primTtl okey c1)) fun ttl c2 =>
      match value with
      | none => (.error .valueError, c2)
      | some val =>
        let nkey := b.make_key key (some (v + delta))
        step (set_made b nkey val ttl c2) fun _ c3 =>
          step (delete_made okey c3) fun _ c4 => (.ok (v + delta), c4)

/-- `DefaultClient.incr` (lines 305-321): the EXISTS probe is issued
outside any `try/except ConnectionError` block, unlike every other
connection touch in the class; then wrapped get and set of `value+delta`. -/
def DefaultClient.incr (b : Backend) (key : String) (delta : Int)
    (version : Option Int) (c : Conn) : Except PyErr Int × Conn :=
  let k := b.make_key key version
  step (primExists k c) fun ex c1 =>
    if ex then
      step (getMade k none c1) fun v0 c2 =>
        match v0 with
        | none => (.error .typeError, c2)
        | some w =>
          step (set_made b k (w + delta) none c2) fun _ c3 => (.ok (w + delta), c3)
    else (.error .valueError, c1)

/-- `DefaultClient.has_key`: wrapped EXISTS. -/
def DefaultClient.has_key (b : Backend) (key : String) (version : Option Int)
    (c : Conn) : Except PyErr Bool × Conn :=
  wrap (primExists (b.make_key key version) c)

/-- `DefaultClient.decr` (lines 323-338): like `incr` but the existence
probe goes through `has_key`, which wraps its ConnectionError. -/
def DefaultClient.decr (b : Backend) (key : String) (delta : Int)
    (version : Option Int) (c : Conn) : Except PyErr Int × Conn :=
  let k := b.make_key key version
  step (wrap (primExists k c)) fun ex c1 =>
    if ex then
      step (getMade k none c1) fun v0 c2 =>
        match v0 with
        | none => (.error .typeError, c2)
        | some w =>
          step (set_made b k (w - delta) none c2) fun _ c3 => (.ok (w - delta), c3)
    else (.error .valueError, c1)

/-- `DefaultClient.clear` (lines 237-244): FLUSHDB with no
`try/except ConnectionError` around it. -/
def DefaultClient.clear (c : Conn) : Except PyErr Unit × Conn :=
  primFlush c

/-- `DefaultClient.delete_many`: early return on the empty list, one
wrapped DEL of all made keys otherwise. -/
def DefaultClient.delete_many (b : Backend) (keys : List String)
    (version : Option Int) (c : Conn) : Except PyErr Unit × Conn :=
  if keys = [] then (.ok (), c)
  else wrap (primDel (keys.map fun k => b.make_key k version) c)

/-- `DefaultClient.delete_pattern`: wrapped KEYS, then DEL of the matches
when any, inside a single `try` block. -/
def DefaultClient.delete_pattern (p : VKey → Bool) (c : Conn) :
    Except PyErr Unit × Conn :=
  wrap (step (primKeys p c) fun ks c1 =>
    if ks = [] then (.ok (), c1) else primDel ks c1)

/-- `DefaultClient.keys` (lines 355-363): wrapped KEYS, keeping the third
colon component of each hit (the raw key, per the spec's wire format) and
deduplicating via `set(...)`. -/
def DefaultClient.keysOp (p : VKey → Bool) (c : Conn) :
    Except PyErr (List String) × Conn :=
  wrap (step (primKeys p c) fun ks c1 => (.ok ((ks.map VKey.raw).dedup), c1))

/-- Python `dict(zip(new_keys, keys))` lookup: later zip entries win. -/
def lookupLast (k : VKey) : List (VKey × String) → Option String
  | [] => none
  | (k1, s) :: rest =>
    match lookupLast k rest with
    | some r => some r
    | none => if k = k1 then some s else none

/-- `SortedDict` assignment: update in place when the key exists, append
otherwise (insertion-ordered dict). -/
def sdInsert : List (String × Int) → String → Int → List (String × Int)
  | [], k, v => [(k, v)]
  | (k1, v1) :: rest, k, v =>
    if k = k1 then (k1, v) :: rest else (k1, v1) :: sdInsert rest k v

/-- The merge loop of `DefaultClient.get_many`: walk `zip(new_keys,
results)`, skip absent values, record the rest under the original key via
the `map_keys` dict. The `none` branch of the dict lookup is unreachable
because every iterated key is a zip key. -/
def getManyMerge (allPairs : List (VKey × String)) :
    List (VKey × Option Int) → List (String × Int) → List (String × Int)
  | [], acc => acc
  | (_, none) :: rest, acc => getManyMerge allPairs rest acc
  | (vk, some v) :: rest, acc =>
    match lookupLast vk allPairs with
    | some orig => getManyMerge allPairs rest (sdInsert acc orig v)
    | none => getManyMerge allPairs rest acc

/-- `DefaultClient.get_many` (lines 259-284): early `{}` on no keys, one
wrapped MGET, then the order-preserving merge. -/
def DefaultClient.get_many (b : Backend) (keys : List String)
    (version : Option Int) (c : Conn) :
    Except PyErr (List (String × Int)) × Conn :=
  if keys = [] then (.ok [], c)
  else
    let pairs := keys.map fun k => (b.make_key k version, k)
    step (wrap (primMget (pairs.map Prod.fst) c)) fun results c1 =>
      (.ok (getManyMerge pairs ((pairs.map Prod.fst).zip results) []), c1)

/-- The pipelined body of `set_many`: each queued command is the SETEX/SET
the corresponding `set` call would issue, executed in FIFO order. -/
def setManyBody (b : Backend) (timeout version : Option Int) :
    List (String × Int) → Conn → Except PyErr Unit × Conn
  | [], c => (.ok (), c)
  | (k, v) :: rest, c =>
    let vk := b.make_key k version
    let t := timeout.getD b.default_timeout
    step (if 0 < t then primSetex vk v t c else primSet vk v c) fun _ c1 =>
      setManyBody b timeout version rest c1

/-- `DefaultClient.set_many`: the whole pipeline under one
ConnectionError wrapper. -/
def DefaultClient.set_many (b : Backend) (data : List (String × Int))
    (timeout version : Option Int) (c : Conn) : Except PyErr Unit × Conn :=
  wrap (setManyBody b timeout version data c)

/-! ## Association-list store lemmas -/

theorem Store.lookup_insert_self (s : Store) (k : VKey) (v : Int) (t : Option Int) :
    (s.insert k v t).lookup k = some (v, t) := by
  simp [Store.insert, Store.lookup]

theorem Store.lookup_erase_self (s : Store) (k : VKey) :
    (s.erase k).lookup k = none := by
  induction s with
  | nil => rfl
  | cons hd tl ih =>
    obtain ⟨k1, v1, t1⟩ := hd
    by_cases h : k = k1
    · subst h
      simp [Store.erase, Store.lookup, ih]
    · simp [Store.erase, Store.lookup, h, ih]

theorem Store.lookup_erase_ne (s : Store) (k k1 : VKey) (h : k ≠ k1) :
    (s.erase k1).lookup k = s.lookup k := by
  induction s with
  | nil => rfl
  | cons hd tl ih =>
    obtain ⟨k2, v2, t2⟩ := hd
    by_cases h2 : k1 = k2
    · subst h2
      simp [Store.erase, Store.lookup, h, ih]
    · by_cases h3 : k = k2 <;>
        simp [Store.erase, Store.lookup, h2, h3, ih]

theorem Store.lookup_insert_ne (s : Store) (k k1 : VKey) (v : Int) (t : Option Int)
    (h : k ≠ k1) : (s.insert k1 v t).lookup k = s.lookup k := by
  simp [Store.insert, Store.lookup, h, Store.lookup_erase_ne s k k1 h]

/-! ## C5 — `set` timeout boundary -/

/-- C5 counterexample: the claim says an unset timeout issues a plain SET
with no TTL, but the source substitutes `backend.default_timeout` before
the `timeout > 0` test, so with the usual positive default (300 here) an
unset timeout stores the entry with a TTL of 300 seconds via SETEX. -/
theorem set_unset_timeout_counterexample :
    (DefaultClient.set ⟨"p", 300, 1⟩ "k" 7 none none (Conn.ok [])).2.store.lookup
        ⟨"p", 1, "k"⟩ = some (7, some 300) ∧
      (some (300 : Int) : Option Int) ≠ none := by
  constructor
  · rfl
  · simp

/-- C5 amended: `set` first replaces an unset timeout by
`backend.default_timeout`; when the effective timeout is positive it
issues SETEX with that many seconds, and when it is zero or negative it
issues a plain SET with no TTL. -/
theorem set_timeout_boundary (b : Backend) (key : String) (v : Int)
    (timeout version : Option Int) (st : Store) :
    (0 < timeout.getD b.default_timeout →
      DefaultClient.set b key v timeout version (Conn.ok st) =
        (.ok true, ⟨st.insert (b.make_key key version) v
          (some (timeout.getD b.default_timeout)), fun _ => false⟩)) ∧
    (timeout.getD b.default_timeout ≤ 0 →
      DefaultClient.set b key v timeout version (Conn.ok st) =
        (.ok true, ⟨st.insert (b.make_key key version) v none, fun _ => false⟩)) := by
  constructor
  · intro h
    simp [DefaultClient.set, set_made, h, primSetex, Conn.ok, wrap]
  · intro h
    simp [DefaultClient.set, set_made, not_lt.mpr h, primSet, Conn.ok, wrap]

/-- C5 witness: a positive explicit timeout stores with that TTL, and an
explicit zero timeout stores without TTL. -/
theorem set_timeout_boundary_witness :
    DefaultClient.set ⟨"p", 300, 1⟩ "k" 7 (some 42) none (Conn.ok []) =
      (.ok true, ⟨[(⟨"p", 1, "k"⟩, 7, some 42)], fun _ => false⟩) ∧
    DefaultClient.set ⟨"p", 300, 1⟩ "k" 7 (some 0) none (Conn.ok []) =
      (.ok true, ⟨[(⟨"p", 1, "k"⟩, 7, none)], fun _ => false⟩) := by
  constructor
  · exact (set_timeout_boundary ⟨"p", 300, 1⟩ "k" 7 (some 42) none []).1 (by decide)
  · exact (set_timeout_boundary ⟨"p", 300, 1⟩ "k" 7 (some 0) none []).2 (by decide)

/-! ## C6 — `add` is exclusive -/

/-- C6: on an absent key `add` stores v1 (with the TTL the timeout rule
dictates) and returns True; a second `add` with v2 on the now-present key
returns False, performs no write, and the stored value is still v1. -/
theorem add_exclusive (b : Backend) (key : String) (v1 v2 : Int)
    (t1 t2 version : Option Int) (st : Store)
    (habs : st.lookup (b.make_key key version) = none) :
    DefaultClient.add b key v1 t1 version (Conn.ok st) =
      (.ok true, ⟨st.insert (b.make_key key version) v1
        (if 0 < t1.getD b.default_timeout then some (t1.getD b.default_timeout)
         else none), fun _ => false⟩) ∧
    DefaultClient.add b key v2 t2 version
        (⟨st.insert (b.make_key key version) v1
          (if 0 < t1.getD b.default_timeout then some (t1.getD b.default_timeout)
           else none), fun _ => false⟩) =
      (.ok false, ⟨st.insert (b.make_key key version) v1
        (if 0 < t1.getD b.default_timeout then some (t1.getD b.default_timeout)
         else none), fun _ => false⟩) ∧
    (st.insert (b.make_key key version) v1
        (if 0 < t1.getD b.default_timeout then some (t1.getD b.default_timeout)
         else none)).lookup (b.make_key key version) =
      some (v1, if 0 < t1.getD b.default_timeout then some (t1.getD b.default_timeout)
        else none) := by
  refine ⟨?_, ?_, Store.lookup_insert_self ..⟩
  · by_cases h : 0 < t1.getD b.default_timeout <;>
      simp [DefaultClient.add, primExists, Conn.ok, wrap, step, habs, set_made, h,
        primSetex, primSet]
  · simp [DefaultClient.add, primExists, Conn.ok, wrap, step,
      Store.lookup_insert_self]

/-- C6 witness at a concrete store. -/
theorem add_exclusive_witness :
    DefaultClient.add ⟨"p", 300, 1⟩ "k" 5 none none (Conn.ok []) =
      (.ok true, ⟨[(⟨"p", 1, "k"⟩, 5, some 300)], fun _ => false⟩) ∧
    DefaultClient.add ⟨"p", 300, 1⟩ "k" 6 none none
        (⟨[(⟨"p", 1, "k"⟩, 5, some 300)], fun _ => false⟩) =
      (.ok false, ⟨[(⟨"p", 1, "k"⟩, 5, some 300)], fun _ => false⟩) := by
  have h := add_exclusive ⟨"p", 300, 1⟩ "k" 5 6 none none none [] rfl
  exact ⟨h.1, h.2.1⟩

/-! ## C7 — `incr`/`decr` require existence -/

/-- The TTL `incr`/`decr` leave behind: their inner `set` call passes no
timeout, so the default-timeout rule applies to the written value. -/
def defaultTtl (b : Backend) : Option Int :=
  if 0 < b.default_timeout then some b.default_timeout else none

/-- C7: `incr` and `decr` on a missing key fail with ValueError and leave
the store untouched; on a key holding w they write back w+delta
(respectively w-delta) and return it. -/
theorem incr_decr_spec (b : Backend) (key : String) (delta : Int)
    (version : Option Int) (st : Store) :
    (st.lookup (b.make_key key version) = none →
      DefaultClient.incr b key delta version (Conn.ok st) =
        (.error .valueError, Conn.ok st) ∧
      DefaultClient.decr b key delta version (Conn.ok st) =
        (.error .valueError, Conn.ok st)) ∧
    (∀ w tt, st.lookup (b.make_key key version) = some (w, tt) →
      DefaultClient.incr b key delta version (Conn.ok st) =
        (.ok (w + delta), ⟨st.insert (b.make_key key version) (w + delta)
          (defaultTtl b), fun _ => false⟩) ∧
      DefaultClient.decr b key delta version (Conn.ok st) =
        (.ok (w - delta), ⟨st.insert (b.make_key key version) (w - delta)
          (defaultTtl b), fun _ => false⟩)) := by
  constructor
  · intro habs
    constructor <;>
      simp [DefaultClient.incr, DefaultClient.decr, primExists, Conn.ok, wrap,
        step, habs]
  · intro w tt hpres
    constructor <;>
      · by_cases h : 0 < b.default_timeout <;>
          simp [DefaultClient.incr, DefaultClient.decr, primExists, Conn.ok, wrap,
            step, hpres, getMade, primGet, set_made, h, primSetex, primSet,
            defaultTtl]

/-- C7 witness: `incr` on a missing key fails and writes nothing; on a key
holding 10 with delta 3 it returns 13; `decr` returns 7. -/
theorem incr_decr_spec_witness :
    DefaultClient.incr ⟨"p", 300, 1⟩ "m" 1 none (Conn.ok []) =
      (.error .valueError, Conn.ok []) ∧
    DefaultClient.incr ⟨"p", 300, 1⟩ "k" 3 none
        (Conn.ok [(⟨"p", 1, "k"⟩, 10, none)]) =
      (.ok 13, ⟨[(⟨"p", 1, "k"⟩, 13, some 300)], fun _ => false⟩) ∧
    DefaultClient.decr ⟨"p", 300, 1⟩ "k" 3 none
        (Conn.ok [(⟨"p", 1, "k"⟩, 10, none)]) =
      (.ok 7, ⟨[(⟨"p", 1, "k"⟩, 7, some 300)], fun _ => false⟩) := by
  refine ⟨((incr_decr_spec ⟨"p", 300, 1⟩ "m" 1 none []).1 rfl).1, ?_, ?_⟩
  · exact (((incr_decr_spec ⟨"p", 300, 1⟩ "k" 3 none
      [(⟨"p", 1, "k"⟩, 10, none)]).2 10 none) rfl).1
  · exact (((incr_decr_spec ⟨"p", 300, 1⟩ "k" 3 none
      [(⟨"p", 1, "k"⟩, 10, none)]).2 10 none) rfl).2

/-! ## C2 — `incr_version` moves the entry and keeps its TTL -/

/-- C2: for a key present at the resolved old version with remaining TTL t,
`incr_version` re-stores the value under version+delta with the same TTL t
(the TTL feeds the `timeout > 0` branch of `set`), deletes the old
versioned key leaving every other key untouched, and returns
version+delta; for an absent key it fails with ValueError and writes
nothing. `delta` is nonzero so that the new versioned key is distinct
from the old one. -/
theorem incr_version_spec (b : Backend) (key : String) (delta : Int)
    (version : Option Int) (st : Store) :
    (∀ val t, st.lookup (b.make_key key (some (version.getD b.version))) =
        some (val, some t) → 0 < t → delta ≠ 0 →
      DefaultClient.incr_version b key delta version (Conn.ok st) =
        (.ok (version.getD b.version + delta),
          ⟨(st.insert (b.make_key key (some (version.getD b.version + delta)))
              val (some t)).erase
            (b.make_key key (some (version.getD b.version))), fun _ => false⟩) ∧
      ((st.insert (b.make_key key (some (version.getD b.version + delta)))
            val (some t)).erase
          (b.make_key key (some (version.getD b.version)))).lookup
          (b.make_key key (some (version.getD b.version + delta))) =
        some (val, some t) ∧
      ((st.insert (b.make_key key (some (version.getD b.version + delta)))
            val (some t)).erase
          (b.make_key key (some (version.getD b.version)))).lookup
          (b.make_key key (some (version.getD b.version))) = none ∧
      (∀ k1, k1 ≠ b.make_key key (some (version.getD b.version)) →
        k1 ≠ b.make_key key (some (version.getD b.version + delta)) →
        ((st.insert (b.make_key key (some (version.getD b.version + delta)))
              val (some t)).erase
            (b.make_key key (some (version.getD b.version)))).lookup k1 =
          st.lookup k1)) ∧
    (st.lookup (b.make_key key (some (version.getD b.version))) = none →
      DefaultClient.incr_version b key delta version (Conn.ok st) =
        (.error .valueError, Conn.ok st)) := by
  constructor
  · intro val t hpres ht hdelta
    have hne : b.make_key key (some (version.getD b.version + delta)) ≠
        b.make_key key (some (version.getD b.version)) := by
      intro h
      apply hdelta
      have := congrArg VKey.version h
      simp [Backend.make_key] at this
      omega
    refine ⟨?_, ?_, Store.lookup_erase_self .., ?_⟩
    · simp [DefaultClient.incr_version, getMade, primGet, primTtl, Conn.ok, wrap,
        step, hpres, set_made, ht, primSetex, delete_made, primDel]
    · rw [Store.lookup_erase_ne _ _ _ hne, Store.lookup_insert_self]
    · intro k1 h1 h2
      rw [Store.lookup_erase_ne _ _ _ h1, Store.lookup_insert_ne _ _ _ _ _ h2]
  · intro habs
    simp [DefaultClient.incr_version, getMade, primGet, primTtl, Conn.ok, wrap,
      step, habs]

/-- C2 witness: key "k" stored at version 1 with remaining TTL 100; after
`incr_version` with delta 1 the value sits at version 2 with TTL 100, the
version-1 key is gone, an unrelated key survives, and the call returns 2. -/
theorem incr_version_spec_witness :
    DefaultClient.incr_version ⟨"p", 300, 1⟩ "k" 1 none
        (Conn.ok [(⟨"p", 1, "k"⟩, 42, some 100), (⟨"p", 1, "other"⟩, 9, none)]) =
      (.ok 2, ⟨[(⟨"p", 2, "k"⟩, 42, some 100), (⟨"p", 1, "other"⟩, 9, none)],
        fun _ => false⟩) ∧
    DefaultClient.incr_version ⟨"p", 300, 1⟩ "missing" 1 none (Conn.ok []) =
      (.error .valueError, Conn.ok []) := by
  have h := incr_version_spec ⟨"p", 300, 1⟩ "k" 1 none
    [(⟨"p", 1, "k"⟩, 42, some 100), (⟨"p", 1, "other"⟩, 9, none)]
  have h2 := incr_version_spec ⟨"p", 300, 1⟩ "missing" 1 none []
  exact ⟨(h.1 42 100 rfl (by decide) (by decide)).1, h2.2 rfl⟩

/-! ## C3 — connection failures surface as the typed error -/

/-- A result that is not the raw transport exception. -/
def notRaw {α : Type} (r : Except PyErr α × Conn) : Prop :=
  r.1 ≠ Except.error PyErr.connectionError

theorem notRaw_ok {α : Type} (a : α) (c : Conn) :
    notRaw ((Except.ok a, c) : Except PyErr α × Conn) := by
  simp [notRaw]

theorem notRaw_error {α : Type} (e : PyErr) (c : Conn)
    (h : e ≠ .connectionError) :
    notRaw ((Except.error e, c) : Except PyErr α × Conn) := by
  simpa [notRaw] using h

theorem wrap_notRaw {α : Type} (r : Except PyErr α × Conn) : notRaw (wrap r) := by
  obtain ⟨x, c⟩ := r
  match x with
  | .ok a => exact notRaw_ok a c
  | .error e => cases e <;> simp [wrap, wrapErr, notRaw]

theorem step_notRaw {α β : Type} (r : Except PyErr α × Conn)
    (f : α → Conn → Except PyErr β × Conn) (hr : notRaw r)
    (hf : ∀ a c, notRaw (f a c)) : notRaw (step r f) := by
  obtain ⟨x, c⟩ := r
  match x with
  | .ok a => exact hf a c
  | .error e => simpa [step, notRaw] using hr

theorem set_made_notRaw (b : Backend) (k : VKey) (v : Int)
    (timeout : Option Int) (c : Conn) : notRaw (set_made b k v timeout c) :=
  wrap_notRaw _

theorem getMade_notRaw (k : VKey) (default : Option Int) (c : Conn) :
    notRaw (getMade k default c) := by
  refine step_notRaw _ _ (wrap_notRaw _) ?_
  intro a c1
  match a with
  | none => exact notRaw_ok _ _
  | some x => exact notRaw_ok _ _

theorem delete_made_notRaw (k : VKey) (c : Conn) : notRaw (delete_made k c) :=
  wrap_notRaw _

/-- C3 counterexample: `clear` has no `try/except ConnectionError`, so a
transport failure during FLUSHDB reaches the caller as the raw
`ConnectionError`, not as `ConnectionInterrumped` as the claim requires. -/
theorem clear_raw_counterexample :
    DefaultClient.clear ⟨[], fun op => decide (op = RedisOp.rflush)⟩ =
      (.error .connectionError, ⟨[], fun op => decide (op = RedisOp.rflush)⟩) ∧
    PyErr.connectionError ≠ PyErr.connectionInterrumped := by
  exact ⟨rfl, by decide⟩

/-- A failing GET surfaces as the typed error, connection unchanged. -/
theorem getMade_failing (k : VKey) (d : Option Int) (c : Conn)
    (h : c.failing .rget = true) :
    getMade k d c = (.error .connectionInterrumped, c) := by
  simp [getMade, primGet, h, wrap, wrapErr, step]

/-- A failing SETEX on the positive-timeout branch surfaces as the typed
error, connection unchanged. -/
theorem set_made_failing_setex (b : Backend) (k : VKey) (v : Int)
    (timeout : Option Int) (c : Conn)
    (ht : 0 < timeout.getD b.default_timeout)
    (h : c.failing .rsetex = true) :
    set_made b k v timeout c = (.error .connectionInterrumped, c) := by
  simp [set_made, ht, primSetex, h, wrap, wrapErr]

/-- A failing SET on the nonpositive-timeout branch surfaces as the typed
error, connection unchanged. -/
theorem set_made_failing_set (b : Backend) (k : VKey) (v : Int)
    (timeout : Option Int) (c : Conn)
    (ht : timeout.getD b.default_timeout ≤ 0)
    (h : c.failing .rset = true) :
    set_made b k v timeout c = (.error .connectionInterrumped, c) := by
  simp [set_made, not_lt.mpr ht, primSet, h, wrap, wrapErr]

theorem getMade_ok (k : VKey) (c : Conn) (h : c.failing .rget = false) :
    getMade k none c = (.ok ((c.store.lookup k).map Prod.fst), c) := by
  match h2 : (c.store.lookup k).map Prod.fst with
  | none => simp [getMade, primGet, wrap, step, h, h2]
  | some v => simp [getMade, primGet, wrap, step, h, h2]

/-- A failing DEL surfaces as the typed error, connection unchanged. -/
theorem delete_made_failing (k : VKey) (c : Conn)
    (h : c.failing .rdel = true) :
    delete_made k c = (.error .connectionInterrumped, c) := by
  simp [delete_made, primDel, h, wrap, wrapErr]

/-- C3 amended, both halves.  Negative half (parts 1-12, 15): the result
of every listed operation except `clear` and `incr`-with-failing-EXISTS
is never the raw `ConnectionError`.  Exceptions, faithful to the source
(parts 13-14): `clear` surfaces the raw error from FLUSHDB, and `incr`
surfaces the raw error from its unguarded EXISTS probe.  Positive half
(parts 16-37): at every wrapped primitive call site of every listed
operation, a transport failure there makes the operation return exactly
`ConnectionInterrumped` together with the connection state at that
moment — the untouched connection everywhere except `incr_version`'s
final DEL, which fails after the new versioned key was already written —
so a failure is neither swallowed nor reported as success. -/
theorem connection_error_wrapping :
    (∀ b key default version c, notRaw (DefaultClient.get b key default version c)) ∧
    (∀ b key v timeout version c, notRaw (DefaultClient.set b key v timeout version c)) ∧
    (∀ b key v timeout version c, notRaw (DefaultClient.add b key v timeout version c)) ∧
    (∀ b key version c, notRaw (DefaultClient.delete b key version c)) ∧
    (∀ p c, notRaw (DefaultClient.delete_pattern p c)) ∧
    (∀ b keys version c, notRaw (DefaultClient.delete_many b keys version c)) ∧
    (∀ b keys version c, notRaw (DefaultClient.get_many b keys version c)) ∧
    (∀ b data timeout version c, notRaw (DefaultClient.set_many b data timeout version c)) ∧
    (∀ b key delta version c, notRaw (DefaultClient.decr b key delta version c)) ∧
    (∀ b key version c, notRaw (DefaultClient.has_key b key version c)) ∧
    (∀ p c, notRaw (DefaultClient.keysOp p c)) ∧
    (∀ b key delta version c, notRaw (DefaultClient.incr_version b key delta version c)) ∧
    (∀ c, c.failing .rflush = true →
      DefaultClient.clear c = (.error .connectionError, c)) ∧
    (∀ b key delta version c, c.failing .rexists = true →
      DefaultClient.incr b key delta version c = (.error .connectionError, c)) ∧
    (∀ b key delta version c, c.failing .rexists = false →
      notRaw (DefaultClient.incr b key delta version c)) ∧
    (∀ b key default version c, c.failing .rget = true →
      DefaultClient.get b key default version c =
        (.error .connectionInterrumped, c)) ∧
    (∀ b key v timeout version c, 0 < timeout.getD b.default_timeout →
      c.failing .rsetex = true →
      DefaultClient.set b key v timeout version c =
        (.error .connectionInterrumped, c)) ∧
    (∀ b key v timeout version c, timeout.getD b.default_timeout ≤ 0 →
      c.failing .rset = true →
      DefaultClient.set b key v timeout version c =
        (.error .connectionInterrumped, c)) ∧
    (∀ b key v timeout version c, c.failing .rexists = true →
      DefaultClient.add b key v timeout version c =
        (.error .connectionInterrumped, c)) ∧
    (∀ b key v timeout version c, c.failing .rexists = false →
      c.store.lookup (b.make_key key version) = none →
      DefaultClient.add b key v timeout version c =
        DefaultClient.set b key v timeout version c) ∧
    (∀ b key version c, c.failing .rdel = true →
      DefaultClient.delete b key version c =
        (.error .connectionInterrumped, c)) ∧
    (∀ p c, c.failing .rkeys = true →
      DefaultClient.delete_pattern p c = (.error .connectionInterrumped, c)) ∧
    (∀ p c, c.failing .rkeys = false → c.failing .rdel = true →
      (c.store.map Prod.fst).filter p ≠ [] →
      DefaultClient.delete_pattern p c = (.error .connectionInterrumped, c)) ∧
    (∀ b keys version c, keys ≠ [] → c.failing .rdel = true →
      DefaultClient.delete_many b keys version c =
        (.error .connectionInterrumped, c)) ∧
    (∀ b keys version c, keys ≠ [] → c.failing .rmget = true →
      DefaultClient.get_many b keys version c =
        (.error .connectionInterrumped, c)) ∧
    (∀ b data timeout version c, data ≠ [] →
      (0 < timeout.getD b.default_timeout → c.failing .rsetex = true) →
      (timeout.getD b.default_timeout ≤ 0 → c.failing .rset = true) →
      DefaultClient.set_many b data timeout version c =
        (.error .connectionInterrumped, c)) ∧
    (∀ b key delta version c, c.failing .rexists = false →
      c.failing .rget = true →
      (c.store.lookup (b.make_key key version)).isSome = true →
      DefaultClient.incr b key delta version c =
        (.error .connectionInterrumped, c)) ∧
    (∀ b key delta version c w tt, c.failing .rexists = false →
      c.failing .rget = false →
      c.store.lookup (b.make_key key version) = some (w, tt) →
      (0 < b.default_timeout → c.failing .rsetex = true) →
      (b.default_timeout ≤ 0 → c.failing .rset = true) →
      DefaultClient.incr b key delta version c =
        (.error .connectionInterrumped, c)) ∧
    (∀ b key delta version c, c.failing .rexists = true →
      DefaultClient.decr b key delta version c =
        (.error .connectionInterrumped, c)) ∧
    (∀ b key delta version c, c.failing .rexists = false →
      c.failing .rget = true →
      (c.store.lookup (b.make_key key version)).isSome = true →
      DefaultClient.decr b key delta version c =
        (.error .connectionInterrumped, c)) ∧
    (∀ b key delta version c w tt, c.failing .rexists = false →
      c.failing .rget = false →
      c.store.lookup (b.make_key key version) = some (w, tt) →
      (0 < b.default_timeout → c.failing .rsetex = true) →
      (b.default_timeout ≤ 0 → c.failing .rset = true) →
      DefaultClient.decr b key delta version c =
        (.error .connectionInterrumped, c)) ∧
    (∀ b key version c, c.failing .rexists = true →
      DefaultClient.has_key b key version c =
        (.error .connectionInterrumped, c)) ∧
    (∀ p c, c.failing .rkeys = true →
      DefaultClient.keysOp p c = (.error .connectionInterrumped, c)) ∧
    (∀ b key delta version c, c.failing .rget = true →
      DefaultClient.incr_version b key delta version c =
        (.error .connectionInterrumped, c)) ∧
    (∀ b key delta version c, c.failing .rget = false →
      c.failing .rttl = true →
      DefaultClient.incr_version b key delta version c =
        (.error .connectionInterrumped, c)) ∧
    (∀ b key delta version c val t, c.failing .rget = false →
      c.failing .rttl = false →
      c.store.lookup (b.make_key key (some (version.getD b.version))) =
        some (val, some t) →
      0 < t → c.failing .rsetex = true →
      DefaultClient.incr_version b key delta version c =
        (.error .connectionInterrumped, c)) ∧
    (∀ b key delta version c val t, c.failing .rget = false →
      c.failing .rttl = false → c.failing .rsetex = false →
      c.failing .rdel = true →
      c.store.lookup (b.make_key key (some (version.getD b.version))) =
        some (val, some t) →
      0 < t →
      DefaultClient.incr_version b key delta version c =
        (.error .connectionInterrumped,
          { c with store := (c.store.insert
              (b.make_key key (some (version.getD b.version + delta)))
              val (some t) : Store) })) := by
  refine ⟨?_, ?_, ?_, ?_, ?_, ?_, ?_, ?_, ?_, ?_, ?_, ?_, ?_, ?_, ?_, ?_, ?_,
    ?_, ?_, ?_, ?_, ?_, ?_, ?_, ?_, ?_, ?_, ?_, ?_, ?_, ?_, ?_, ?_, ?_, ?_,
    ?_, ?_⟩
  · intro b key default version c
    exact getMade_notRaw _ _ _
  · intro b key v timeout version c
    exact set_made_notRaw _ _ _ _ _
  · intro b key v timeout version c
    refine step_notRaw _ _ (wrap_notRaw _) ?_
    intro ex c1
    by_cases h : ex <;> simp [h, notRaw_ok, set_made_notRaw]
  · intro b key version c
    exact delete_made_notRaw _ _
  · intro p c
    exact wrap_notRaw _
  · intro b keys version c
    unfold DefaultClient.delete_many
    by_cases h : keys = [] <;> simp [h, notRaw_ok, wrap_notRaw]
  · intro b keys version c
    unfold DefaultClient.get_many
    by_cases h : keys = []
    · simp [h, notRaw_ok]
    · simp only [h, if_false]
      refine step_notRaw _ _ (wrap_notRaw _) ?_
      intro rs c1
      exact notRaw_ok _ _
  · intro b data timeout version c
    exact wrap_notRaw _
  · intro b key delta version c
    refine step_notRaw _ _ (wrap_notRaw _) ?_
    intro ex c1
    by_cases h : ex
    · simp only [h, if_true]
      refine step_notRaw _ _ (getMade_notRaw _ _ _) ?_
      intro v0 c2
      match v0 with
      | none => exact notRaw_error _ _ (by decide)
      | some w =>
        refine step_notRaw _ _ (set_made_notRaw _ _ _ _ _) ?_
        intro u c3
        exact notRaw_ok _ _
    · simp only [h, if_false]
      exact notRaw_error _ _ (by decide)
  · intro b key version c
    exact wrap_notRaw _
  · intro p c
    exact wrap_notRaw _
  · intro b key delta version c
    refine step_notRaw _ _ (getMade_notRaw _ _ _) ?_
    intro value c1
    refine step_notRaw _ _ (wrap_notRaw _) ?_
    intro ttl c2
    match value with
    | none => exact notRaw_error _ _ (by decide)
    | some val =>
      refine step_notRaw _ _ (set_made_notRaw _ _ _ _ _) ?_
      intro u c3
      refine step_notRaw _ _ (delete_made_notRaw _ _) ?_
      intro u2 c4
      exact notRaw_ok _ _
  · intro c h
    simp [DefaultClient.clear, primFlush, h]
  · intro b key delta version c h
    simp [DefaultClient.incr, primExists, h, step]
  · intro b key delta version c h
    unfold DefaultClient.incr
    refine step_notRaw _ _ ?_ ?_
    · simp [primExists, h, notRaw_ok]
    · intro ex c1
      by_cases hex : ex
      · simp only [hex, if_true]
        refine step_notRaw _ _ (getMade_notRaw _ _ _) ?_
        intro v0 c2
        match v0 with
        | none => exact notRaw_error _ _ (by decide)
        | some w =>
          refine step_notRaw _ _ (set_made_notRaw _ _ _ _ _) ?_
          intro u c3
          exact notRaw_ok _ _
      · simp only [hex, if_false]
        exact notRaw_error _ _ (by decide)
  · intro b key default version c h
    exact getMade_failing _ _ _ h
  · intro b key v timeout version c ht h
    exact set_made_failing_setex b _ v timeout c ht h
  · intro b key v timeout version c ht h
    exact set_made_failing_set b _ v timeout c ht h
  · intro b key v timeout version c h
    simp [DefaultClient.add, primExists, h, step, wrap, wrapErr]
  · intro b key v timeout version c hex habs
    simp [DefaultClient.add, DefaultClient.set, primExists, hex, habs, step, wrap]
  · intro b key version c h
    exact delete_made_failing _ _ h
  · intro p c h
    simp [DefaultClient.delete_pattern, primKeys, h, step, wrap, wrapErr]
  · intro p c hk hdel hne
    simp [DefaultClient.delete_pattern, primKeys, hk, step, hne, primDel, hdel,
      wrap, wrapErr]
  · intro b keys version c hne hdel
    simp [DefaultClient.delete_many, hne, primDel, hdel, wrap, wrapErr]
  · intro b keys version c hne h
    simp [DefaultClient.get_many, hne, primMget, h, step, wrap, wrapErr]
  · intro b data timeout version c hne hsx hst
    match data with
    | [] => exact absurd rfl hne
    | (k, v) :: rest =>
      rcases le_or_lt (timeout.getD b.default_timeout) 0 with h1 | h1
      · simp [DefaultClient.set_many, setManyBody, not_lt.mpr h1, primSet,
          hst h1, step, wrap, wrapErr]
      · simp [DefaultClient.set_many, setManyBody, h1, primSetex, hsx h1, step,
          wrap, wrapErr]
  · intro b key delta version c hex hget hsome
    simp [DefaultClient.incr, primExists, hex, hsome, step, getMade, primGet,
      hget, wrap, wrapErr]
  · intro b key delta version c w tt hex hget hlk hsx hst
    have hval : getMade (b.make_key key version) none c = (.ok (some w), c) := by
      simp [getMade, primGet, hget, hlk, wrap, step]
    have hw : set_made b (b.make_key key version) (w + delta) none c =
        (.error .connectionInterrumped, c) := by
      rcases le_or_lt b.default_timeout 0 with h1 | h1
      · exact set_made_failing_set b _ _ none c (by simpa using h1) (hst h1)
      · exact set_made_failing_setex b _ _ none c (by simpa using h1) (hsx h1)
    simp [DefaultClient.incr, primExists, hex, hlk, step, hval, hw]
  · intro b key delta version c h
    simp [DefaultClient.decr, primExists, h, step, wrap, wrapErr]
  · intro b key delta version c hex hget hsome
    simp [DefaultClient.decr, primExists, hex, hsome, step, getMade, primGet,
      hget, wrap, wrapErr]
  · intro b key delta version c w tt hex hget hlk hsx hst
    have hval : getMade (b.make_key key version) none c = (.ok (some w), c) := by
      simp [getMade, primGet, hget, hlk, wrap, step]
    have hw : set_made b (b.make_key key version) (w - delta) none c =
        (.error .connectionInterrumped, c) := by
      rcases le_or_lt b.default_timeout 0 with h1 | h1
      · exact set_made_failing_set b _ _ none c (by simpa using h1) (hst h1)
      · exact set_made_failing_setex b _ _ none c (by simpa using h1) (hsx h1)
    simp [DefaultClient.decr, primExists, hex, hlk, step, hval, hw, wrap, wrapErr]
  · intro b key version c h
    simp [DefaultClient.has_key, primExists, h, wrap, wrapErr]
  · intro p c h
    simp [DefaultClient.keysOp, primKeys, h, step, wrap, wrapErr]
  · intro b key delta version c h
    have hg := getMade_failing (b.make_key key (some (version.getD b.version)))
      none c h
    simp [DefaultClient.incr_version, hg, step]
  · intro b key delta version c hget httl
    have hv := getMade_ok (b.make_key key (some (version.getD b.version))) c hget
    simp [DefaultClient.incr_version, hv, primTtl, httl, step, wrap, wrapErr]
  · intro b key delta version c val t hget httl hlk ht hsx
    simp [DefaultClient.incr_version, getMade, primGet, hget, hlk, primTtl,
      httl, step, wrap, wrapErr, set_made, ht, primSetex, hsx]
  · intro b key delta version c val t hget httl hsx hdel hlk ht
    simp [DefaultClient.incr_version, getMade, primGet, hget, hlk, primTtl,
      httl, step, wrap, wrapErr, set_made, ht, primSetex, hsx, delete_made,
      primDel, hdel]

/-- C3 witness: on an all-failing connection, `get` and `delete` return
exactly `ConnectionInterrumped` with the connection untouched, `clear`
leaks the raw `ConnectionError`, and `set` never yields the raw error. -/
theorem connection_error_wrapping_witness :
    DefaultClient.get ⟨"p", 300, 1⟩ "k" none none ⟨[], fun _ => true⟩ =
      (.error .connectionInterrumped, ⟨[], fun _ => true⟩) ∧
    DefaultClient.delete ⟨"p", 300, 1⟩ "k" none ⟨[], fun _ => true⟩ =
      (.error .connectionInterrumped, ⟨[], fun _ => true⟩) ∧
    DefaultClient.set ⟨"p", 300, 1⟩ "k" 7 none none ⟨[], fun _ => true⟩ =
      (.error .connectionInterrumped, ⟨[], fun _ => true⟩) ∧
    DefaultClient.incr_version ⟨"p", 300, 1⟩ "k" 1 none
        ⟨[(⟨"p", 1, "k"⟩, 42, some 100)], fun op => decide (op = RedisOp.rttl)⟩ =
      (.error .connectionInterrumped,
        ⟨[(⟨"p", 1, "k"⟩, 42, some 100)], fun op => decide (op = RedisOp.rttl)⟩) ∧
    DefaultClient.clear ⟨[], fun _ => true⟩ =
      (.error .connectionError, ⟨[], fun _ => true⟩) ∧
    notRaw (DefaultClient.set_many ⟨"p", 300, 1⟩ [("k", 7)] none none
      ⟨[], fun _ => true⟩) := by
  obtain ⟨n1, n2, n3, n4, n5, n6, n7, n8, n9, n10, n11, n12, x13, x14, n15,
    p16, p17, p18, p19, p20, p21, p22, p23, p24, p25, p26, p27, p28, p29,
    p30, p31, p32, p33, p34, p35, p36, p37⟩ := connection_error_wrapping
  refine ⟨p16 _ _ _ _ _ rfl, p21 _ _ _ _ rfl, p17 _ _ _ _ _ _ (by decide) rfl,
    p35 _ _ _ _ _ rfl rfl, x13 _ rfl, n8 _ _ _ _ _⟩

/-! ## C1 — `ShardClient.get_server_name` hash-tag extraction

The source compiles `_findhash = re.compile('.*\x7b(.*)\x7d.*', re.I)` and
replaces the key by `match.groups()[0]` when the anchored match succeeds.
With Python's greedy matching and no DOTALL flag this means: the match
succeeds iff, in the part of the key before its first newline, some open
brace is followed by a later close brace; the captured group is then the
text strictly between the last such open brace and the last close brace
of that newline-free prefix.  The functions below compute exactly that by
scanning the reversed newline-free prefix: skip to the first close brace
(the last one of the prefix), then take up to the next open brace. -/

def afterFirst (c : Char) : List Char → Option (List Char)
  | [] => none
  | x :: xs => if x = c then some xs else afterFirst c xs

def takeUntil (c : Char) : List Char → Option (List Char)
  | [] => none
  | x :: xs => if x = c then some [] else (takeUntil c xs).map (x :: ·)

def greedyTagChars (cs : List Char) : Option (List Char) :=
  (afterFirst '\x7d' cs.reverse).bind fun rest =>
    (takeUntil '\x7b' rest).map List.reverse

/-- The captured group of `_findhash.match(key)`, `none` when no match. -/
def findhashGroup (s : String) : Option String :=
  (greedyTagChars (s.data.takeWhile fun ch => ch ≠ '\n')).map fun cs => ⟨cs⟩

/-- `ShardClient.get_server_name` up to the ring lookup: the string the
hash ring is fed (lines 710-716). -/
def get_server_hash_key (s : String) : String :=
  match findhashGroup s with
  | some t => t
  | none => s

/-- `ShardClient.get_server_name`: `hash_ring.py` is not part of the
sources, so `ring` abstracts `HashRing.get_node`, a deterministic function
from the hashed string to a node name (spec section 4.2). -/
def get_server_name (ring : String → String) (key : String) : String :=
  ring (get_server_hash_key key)

/-- Modelled from the spec: "only the substring inside the first `\x7b\x7d`
is hashed" — the content of the first brace pair, i.e. from the first open
brace to the first close brace after it. -/
def firstHashTag (s : String) : Option String :=
  (afterFirst '\x7b' s.data).bind fun rest =>
    (takeUntil '\x7d' rest).map fun cs => ⟨cs⟩

/-- Does some open brace precede a close brace? -/
def hasBracePair : List Char → Bool
  | [] => false
  | x :: xs => (decide (x = '\x7b') && decide ('\x7d' ∈ xs)) || hasBracePair xs


theorem afterFirst_not_mem (c : Char) (xs ys : List Char) (h : c ∉ xs) :
    afterFirst c (xs ++ ys) = afterFirst c ys := by
  induction xs with
  | nil => rfl
  | cons x xs ih =>
    have hx : x ≠ c := fun hc => h (hc ▸ List.mem_cons_self x xs)
    simp only [List.cons_append, afterFirst, if_neg hx]
    exact ih fun hc => h (List.mem_cons_of_mem x hc)

theorem afterFirst_cons_self (c : Char) (ys : List Char) :
    afterFirst c (c :: ys) = some ys := by
  simp [afterFirst]

theorem takeUntil_not_mem (c : Char) (xs ys : List Char) (h : c ∉ xs) :
    takeUntil c (xs ++ c :: ys) = some xs := by
  induction xs with
  | nil => simp [takeUntil]
  | cons x xs ih =>
    have hx : x ≠ c := fun hc => h (hc ▸ List.mem_cons_self x xs)
    have ih2 := ih fun hc => h (List.mem_cons_of_mem x hc)
    simp [takeUntil, hx, ih2]

theorem takeWhile_append_of_all (p : Char → Bool) (xs ys : List Char)
    (h : ∀ x ∈ xs, p x = true) :
    (xs ++ ys).takeWhile p = xs ++ ys.takeWhile p := by
  induction xs with
  | nil => rfl
  | cons x xs ih =>
    have h1 : p x = true := h x (List.mem_cons_self x xs)
    have ih2 := ih fun y hy => h y (List.mem_cons_of_mem x hy)
    simp [List.takeWhile_cons, h1, ih2]

theorem afterFirst_eq_some (c : Char) (l rest : List Char)
    (h : afterFirst c l = some rest) :
    ∃ pre, l = pre ++ c :: rest ∧ c ∉ pre := by
  induction l with
  | nil => simp [afterFirst] at h
  | cons x xs ih =>
    by_cases hx : x = c
    · simp only [afterFirst, if_pos hx, Option.some.injEq] at h
      exact ⟨[], by simp [hx, h], by simp⟩
    · simp only [afterFirst, if_neg hx] at h
      obtain ⟨pre, hpre, hmem⟩ := ih h
      refine ⟨x :: pre, by simp [hpre], ?_⟩
      intro hc
      rcases List.mem_cons.mp hc with h1 | h1
      · exact hx h1.symm
      · exact hmem h1

theorem takeUntil_eq_some (c : Char) (l pre : List Char)
    (h : takeUntil c l = some pre) :
    ∃ rest, l = pre ++ c :: rest ∧ c ∉ pre := by
  induction l generalizing pre with
  | nil => simp [takeUntil] at h
  | cons x xs ih =>
    by_cases hx : x = c
    · simp only [takeUntil, if_pos hx, Option.some.injEq] at h
      exact ⟨xs, by simp [hx, ← h], by simp [← h]⟩
    · simp only [takeUntil, if_neg hx] at h
      obtain ⟨pre2, hpre2, hmap⟩ : ∃ pre2, takeUntil c xs = some pre2 ∧ x :: pre2 = pre := by
        match h2 : takeUntil c xs with
        | none => rw [h2] at h; simp at h
        | some p2 => rw [h2] at h; simp at h; exact ⟨p2, rfl, h⟩
      obtain ⟨rest, hrest, hmem⟩ := ih pre2 hpre2
      refine ⟨rest, by simp [← hmap, hrest], ?_⟩
      intro hc
      rcases List.mem_cons.mp (hmap ▸ hc) with h1 | h1
      · exact hx h1.symm
      · exact hmem h1

theorem hasBracePair_of_split (xs ys : List Char) (h : '\x7d' ∈ ys) :
    hasBracePair (xs ++ '\x7b' :: ys) = true := by
  induction xs with
  | nil => simp [hasBracePair, h]
  | cons x xs ih =>
    simp only [List.cons_append, hasBracePair, Bool.or_eq_true]
    exact Or.inr ih

theorem greedyTag_some_hasBracePair (cs t : List Char)
    (h : greedyTagChars cs = some t) : hasBracePair cs = true := by
  unfold greedyTagChars at h
  obtain ⟨rest, hrest, hrest2⟩ : ∃ rest, afterFirst '\x7d' cs.reverse = some rest ∧
      (takeUntil '\x7b' rest).map List.reverse = some t := by
    match h2 : afterFirst '\x7d' cs.reverse with
    | none => rw [h2] at h; simp at h
    | some r => rw [h2] at h; exact ⟨r, rfl, h⟩
  obtain ⟨pre2, hpre2⟩ : ∃ pre2, takeUntil '\x7b' rest = some pre2 := by
    match h3 : takeUntil '\x7b' rest with
    | none => rw [h3] at hrest2; simp at hrest2
    | some p => exact ⟨p, rfl⟩
  obtain ⟨p1, hp1, _⟩ := afterFirst_eq_some _ _ _ hrest
  obtain ⟨r2, hr2, _⟩ := takeUntil_eq_some _ _ _ hpre2
  have hcs : cs = r2.reverse ++ '\x7b' :: (pre2.reverse ++ '\x7d' :: p1.reverse) := by
    have h4 : cs.reverse.reverse = (p1 ++ '\x7d' :: (pre2 ++ '\x7b' :: r2)).reverse := by
      rw [hp1, hr2]
    simpa using h4
  rw [hcs]
  exact hasBracePair_of_split _ _ (by simp)

/-- C1 counterexample: for the key "a\x7bx\x7db\x7by\x7d" the first brace
pair holds "x", but the greedy regex captures "y"; hence this key and
"c\x7bx\x7d", which share the first hash-tag content "x", are fed
different strings to the ring and resolve to different nodes under a ring
that distinguishes them (shown with the identity ring). -/
theorem hash_tag_first_counterexample :
    firstHashTag "a\x7bx\x7db\x7by\x7d" = some "x" ∧
    get_server_hash_key "a\x7bx\x7db\x7by\x7d" = "y" ∧
    get_server_name id "a\x7bx\x7db\x7by\x7d" ≠ get_server_name id "c\x7bx\x7d" := by
  refine ⟨by decide, by decide, by decide⟩

/-- C1 amended: `get_server_name` feeds the ring the group captured by the
greedy pattern — the text between the last open brace that precedes the
final close brace and that final close brace, inside the part of the key
before any newline — not the first brace pair.  Proved consequences:
(1) any two keys with equal extracted strings resolve to the same node
under any ring; (2) a key whose newline-free prefix contains no
open-brace-then-close-brace pair is hashed whole; (3) for a key with
exactly one brace pair the extracted string is exactly the first
hash-tag content, so such keys sharing their tag co-locate. -/
theorem hash_tag_extraction (ring : String → String) :
    (∀ k1 k2 : String, get_server_hash_key k1 = get_server_hash_key k2 →
      get_server_name ring k1 = get_server_name ring k2) ∧
    (∀ s : String,
      hasBracePair (s.data.takeWhile fun ch => ch ≠ '\n') = false →
      get_server_hash_key s = s) ∧
    (∀ a b c : List Char,
      (∀ x ∈ a, x ≠ '\x7b' ∧ x ≠ '\x7d' ∧ x ≠ '\n') →
      (∀ x ∈ b, x ≠ '\x7b' ∧ x ≠ '\x7d' ∧ x ≠ '\n') →
      (∀ x ∈ c, x ≠ '\x7b' ∧ x ≠ '\x7d') →
      get_server_hash_key ⟨a ++ '\x7b' :: b ++ '\x7d' :: c⟩ = ⟨b⟩ ∧
      firstHashTag ⟨a ++ '\x7b' :: b ++ '\x7d' :: c⟩ = some ⟨b⟩) := by
  refine ⟨?_, ?_, ?_⟩
  · intro k1 k2 h
    simp [get_server_name, h]
  · intro s h
    unfold get_server_hash_key findhashGroup
    match h2 : greedyTagChars (s.data.takeWhile fun ch => ch ≠ '\n') with
    | none => simp
    | some t => rw [greedyTag_some_hasBracePair _ _ h2] at h; cases h
  · intro a b c ha hb hc
    have hsdata : (String.mk (a ++ '\x7b' :: b ++ '\x7d' :: c)).data =
        a ++ '\x7b' :: b ++ '\x7d' :: c := rfl
    have hpred : ∀ x ∈ a ++ '\x7b' :: b ++ ['\x7d'],
        (fun ch => decide (ch ≠ '\n')) x = true := by
      intro x hx
      show decide (x ≠ '\n') = true
      simp only [decide_eq_true_eq]
      intro he
      subst he
      rcases List.mem_append.mp hx with h1 | h1
      · rcases List.mem_append.mp h1 with h2 | h2
        · exact (ha _ h2).2.2 rfl
        · rcases List.mem_cons.mp h2 with h3 | h3
          · exact absurd h3 (by decide)
          · exact (hb _ h3).2.2 rfl
      · exact absurd (List.mem_singleton.mp h1) (by decide)
    have htake : (a ++ '\x7b' :: b ++ '\x7d' :: c).takeWhile
        (fun ch => decide (ch ≠ '\n')) =
        (a ++ '\x7b' :: b ++ ['\x7d']) ++
          c.takeWhile (fun ch => decide (ch ≠ '\n')) := by
      have hrearr : a ++ '\x7b' :: b ++ '\x7d' :: c =
          (a ++ '\x7b' :: b ++ ['\x7d']) ++ c := by simp
      rw [hrearr, takeWhile_append_of_all _ _ _ hpred]
    have hctake : ∀ x ∈ c.takeWhile (fun ch => decide (ch ≠ '\n')),
        x ≠ '\x7b' ∧ x ≠ '\x7d' :=
      fun x hx => hc x ((List.takeWhile_sublist _).mem hx)
    have hgreedy : greedyTagChars ((a ++ '\x7b' :: b ++ ['\x7d']) ++
        c.takeWhile (fun ch => decide (ch ≠ '\n'))) = some b := by
      unfold greedyTagChars
      have hrev : ((a ++ '\x7b' :: b ++ ['\x7d']) ++
          c.takeWhile (fun ch => decide (ch ≠ '\n'))).reverse =
          (c.takeWhile (fun ch => decide (ch ≠ '\n'))).reverse ++
            '\x7d' :: (b.reverse ++ '\x7b' :: a.reverse) := by
        simp
      rw [hrev, afterFirst_not_mem '\x7d' _ _
        (fun hm => (hctake _ (List.mem_reverse.mp hm)).2 rfl),
        afterFirst_cons_self]
      simp only [Option.some_bind]
      rw [takeUntil_not_mem '\x7b' _ _
        (fun hm => (hb _ (List.mem_reverse.mp hm)).1 rfl)]
      simp
    constructor
    · unfold get_server_hash_key findhashGroup
      rw [hsdata, htake, hgreedy]
      rfl
    · unfold firstHashTag
      rw [hsdata, List.append_assoc, List.cons_append,
        afterFirst_not_mem '\x7b' a ('\x7b' :: (b ++ '\x7d' :: c))
          (fun hm => (ha _ hm).1 rfl),
        afterFirst_cons_self]
      simp only [Option.some_bind]
      rw [takeUntil_not_mem '\x7d' b c (fun hm => (hb _ hm).2.1 rfl)]
      rfl

/-- C1 witness: two single-tag keys sharing their tag resolve to the same
node; a tag-free key is hashed whole; the single-pair decomposition of
"a\x7bs\x7d" extracts "s". -/
theorem hash_tag_extraction_witness :
    get_server_name id "u\x7bshard1\x7d" = get_server_name id "v\x7bshard1\x7d" ∧
    get_server_hash_key "plain" = "plain" ∧
    get_server_hash_key "a\x7bs\x7d" = "s" := by
  refine ⟨(hash_tag_extraction id).1 _ _ (by decide),
    (hash_tag_extraction id).2.1 "plain" (by decide), ?_⟩
  have h := ((hash_tag_extraction id).2.2 ['a'] ['s'] []
    (by decide) (by decide) (by decide)).1
  exact h

/-! ## C4 — sharded `get_many` merge -/

/-- `str(CacheKey)`: the wire form of a versioned key fed to the hash ring
(spec section 6 layout). -/
def VKey.str (k : VKey) : String :=
  k.pfx ++ ":" ++ toString k.version ++ ":" ++ k.raw

/-- The sharded client's routing state: the ring node chooser
(`HashRing.get_node`, not under the sources, abstracted as a function per
spec section 4.2) and the node-name-to-connection dictionary
(`self._serverdict`). -/
structure ShardEnv where
  ring : String → String
  serverdict : String → Conn

/-- `ShardClient.get_server`: ring lookup on the extracted hash key, then
the connection of the owning node. -/
def ShardEnv.get_server (env : ShardEnv) (k : VKey) : Conn :=
  env.serverdict (get_server_name env.ring k.str)

/-- The loop of `ShardClient.get_many` (lines 746-753): per key, resolve
the owning shard, fetch through the single-node `get` against that
connection, skip absent values, record the rest under the original key. -/
def shardGetManyLoop (env : ShardEnv) (allPairs : List (VKey × String)) :
    List (VKey × String) → List (String × Int) →
    Except PyErr (List (String × Int))
  | [], acc => .ok acc
  | (vk, _) :: rest, acc =>
    match (getMade vk none (env.get_server vk)).1 with
    | .error e => .error e
    | .ok none => shardGetManyLoop env allPairs rest acc
    | .ok (some v) =>
      match lookupLast vk allPairs with
      | some orig => shardGetManyLoop env allPairs rest (sdInsert acc orig v)
      | none => shardGetManyLoop env allPairs rest acc

/-- `ShardClient.get_many` (lines 738-754). -/
def ShardClient.get_many (b : Backend) (env : ShardEnv) (keys : List String)
    (version : Option Int) : Except PyErr (List (String × Int)) :=
  if keys = [] then .ok []
  else
    let pairs := keys.map fun k => (b.make_key k version, k)
    shardGetManyLoop env pairs pairs []

theorem sdInsert_append (acc : List (String × Int)) (k : String) (v : Int)
    (h : k ∉ acc.map Prod.fst) : sdInsert acc k v = acc ++ [(k, v)] := by
  induction acc with
  | nil => rfl
  | cons hd tl ih =>
    obtain ⟨k1, v1⟩ := hd
    simp only [List.map_cons, List.mem_cons] at h
    push_neg at h
    simp only [sdInsert, if_neg h.1, List.cons_append]
    rw [ih h.2]

theorem lookupLast_eq_none (k : VKey) (l : List (VKey × String))
    (h : k ∉ l.map Prod.fst) : lookupLast k l = none := by
  induction l with
  | nil => rfl
  | cons hd tl ih =>
    obtain ⟨k1, s1⟩ := hd
    simp only [List.map_cons, List.mem_cons] at h
    push_neg at h
    simp only [lookupLast, ih h.2, if_neg h.1]

theorem lookupLast_nodup_mem (k : VKey) (s : String) (l : List (VKey × String))
    (hnd : (l.map Prod.fst).Nodup) (hmem : (k, s) ∈ l) :
    lookupLast k l = some s := by
  induction l with
  | nil => cases hmem
  | cons hd tl ih =>
    obtain ⟨k1, s1⟩ := hd
    simp only [List.map_cons, List.nodup_cons] at hnd
    rcases List.mem_cons.mp hmem with h1 | h1
    · obtain ⟨hk, hs⟩ := Prod.mk.injEq .. ▸ h1
      subst hk
      subst hs
      simp [lookupLast, lookupLast_eq_none k tl hnd.1]
    · simp only [lookupLast, ih hnd.2 h1]

theorem shardGetManyLoop_spec (env : ShardEnv) (allPairs : List (VKey × String))
    (P : List (VKey × String)) (acc : List (String × Int))
    (hlk : ∀ p ∈ P, lookupLast p.1 allPairs = some p.2)
    (hnd : (P.map Prod.snd).Nodup)
    (hacc : ∀ p ∈ P, p.2 ∉ acc.map Prod.fst)
    (hfail : ∀ n, (env.serverdict n).failing .rget = false) :
    shardGetManyLoop env allPairs P acc =
      .ok (acc ++ P.filterMap fun p =>
        ((env.get_server p.1).store.lookup p.1).map fun e => (p.2, e.1)) := by
  induction P generalizing acc with
  | nil => simp [shardGetManyLoop]
  | cons hd rest ih =>
    obtain ⟨vk, orig⟩ := hd
    have hget := getMade_ok vk (env.get_server vk) (hfail _)
    simp only [List.map_cons, List.nodup_cons] at hnd
    match h2 : ((env.get_server vk).store.lookup vk) with
    | none =>
      have hres : (getMade vk none (env.get_server vk)).1 = .ok none := by
        rw [hget, h2]; rfl
      simp only [shardGetManyLoop, hres, List.filterMap_cons, h2, Option.map_none]
      exact ih acc (fun p hp => hlk p (List.mem_cons_of_mem _ hp)) hnd.2
        (fun p hp => hacc p (List.mem_cons_of_mem _ hp))
    | some e =>
      have hres : (getMade vk none (env.get_server vk)).1 = .ok (some e.1) := by
        rw [hget, h2]; rfl
      have hlk1 : lookupLast vk allPairs = some orig :=
        hlk (vk, orig) (List.mem_cons_self _ _)
      have hins : sdInsert acc orig e.1 = acc ++ [(orig, e.1)] :=
        sdInsert_append acc orig e.1 (hacc (vk, orig) (List.mem_cons_self _ _))
      have hacc2 : ∀ p ∈ rest, p.2 ∉ (acc ++ [(orig, e.1)]).map Prod.fst := by
        intro p hp
        simp only [List.map_append, List.map_cons, List.map_nil, List.mem_append,
          List.mem_singleton]
        rintro (h3 | h3)
        · exact hacc p (List.mem_cons_of_mem _ hp) h3
        · exact hnd.1 (h3 ▸ List.mem_map.mpr ⟨p, hp, rfl⟩)
      simp only [shardGetManyLoop, hres, hlk1, hins, List.filterMap_cons, h2,
        Option.map_some]
      rw [ih (acc ++ [(orig, e.1)])
        (fun p hp => hlk p (List.mem_cons_of_mem _ hp)) hnd.2 hacc2]
      simp

/-- C4: with distinct requested keys and healthy shard connections, the
sharded `get_many` returns exactly the requested keys whose value is
present on their owning shard — each key resolved to its shard
independently through the ring — in the caller's requested order,
omitting keys whose stored value is absent. -/
theorem shard_get_many_spec (b : Backend) (env : ShardEnv) (keys : List String)
    (version : Option Int) (hnd : keys.Nodup)
    (hfail : ∀ n, (env.serverdict n).failing .rget = false) :
    ShardClient.get_many b env keys version =
      .ok (keys.filterMap fun k =>
        ((env.get_server (b.make_key k version)).store.lookup
          (b.make_key k version)).map fun e => (k, e.1)) := by
  unfold ShardClient.get_many
  by_cases hk : keys = []
  · simp [hk]
  · simp only [if_neg hk]
    have hinj : Function.Injective fun k => b.make_key k version := by
      intro k1 k2 h
      exact congrArg VKey.raw h
    have hndp : ((keys.map fun k => (b.make_key k version, k)).map Prod.fst).Nodup := by
      rw [List.map_map]
      exact hnd.map hinj
    have hlkAll : ∀ p ∈ keys.map (fun k => (b.make_key k version, k)),
        lookupLast p.1 (keys.map fun k => (b.make_key k version, k)) = some p.2 := by
      intro p hp
      obtain ⟨k, hkmem, hkeq⟩ := List.mem_map.mp hp
      subst hkeq
      exact lookupLast_nodup_mem _ _ _ hndp (List.mem_map.mpr ⟨k, hkmem, rfl⟩)
    have hsnd : ((keys.map fun k => (b.make_key k version, k)).map Prod.snd).Nodup := by
      rw [List.map_map]
      have hid : (Prod.snd ∘ fun k => (b.make_key k version, k)) = fun k => k := rfl
      rw [hid, List.map_id']
      exact hnd
    rw [shardGetManyLoop_spec env _ _ [] hlkAll hsnd (by simp) hfail,
      List.nil_append, List.filterMap_map]
    rfl

/-- C4 witness: three keys over shards (with the identity ring over wire
forms), "b" absent on its shard, returns "a" and "c" in request order. -/
theorem shard_get_many_spec_witness :
    ShardClient.get_many ⟨"p", 300, 1⟩
      ⟨fun s => s, fun n =>
        if n = "p:1:a" then Conn.ok [(⟨"p", 1, "a"⟩, 11, none)]
        else if n = "p:1:c" then Conn.ok [(⟨"p", 1, "c"⟩, 33, none)]
        else Conn.ok []⟩
      ["a", "b", "c"] none = .ok [("a", 11), ("c", 33)] := by
  have h := shard_get_many_spec ⟨"p", 300, 1⟩
    ⟨fun s => s, fun n =>
      if n = "p:1:a" then Conn.ok [(⟨"p", 1, "a"⟩, 11, none)]
      else if n = "p:1:c" then Conn.ok [(⟨"p", 1, "c"⟩, 33, none)]
      else Conn.ok []⟩
    ["a", "b", "c"] none (by decide) ?_
  · rw [h]
    rfl
  · intro n
    by_cases h1 : n = "p:1:a"
    · simp [h1, Conn.ok]
    · by_cases h2 : n = "p:1:c" <;> simp [h1, h2, Conn.ok]

/-! ## C8 — configuration errors -/

def isPySpace (ch : Char) : Bool :=
  ch = ' ' || ch = '\t' || ch = '\n' || ch = '\r'

/-- Strip surrounding whitespace (Python `str.strip` as `int` applies). -/
def trimChars (cs : List Char) : List Char :=
  ((cs.dropWhile isPySpace).reverse.dropWhile isPySpace).reverse

def digitsToNat : List Char → Option Nat
  | [] => none
  | cs =>
    if cs.all Char.isDigit then
      some (cs.foldl (fun n ch => 10 * n + (ch.toNat - 48)) 0)
    else none

/-- Python `int(str)`: surrounding whitespace stripped, optional sign,
at least one decimal digit; anything else raises ValueError. -/
def pyInt (s : String) : Option Int :=
  match trimChars s.data with
  | '+' :: cs => (digitsToNat cs).map Int.ofNat
  | '-' :: cs => (digitsToNat cs).map fun n => -(n : Int)
  | cs => (digitsToNat cs).map Int.ofNat

/-- Python `str.split(":")` over the character list. -/
def splitColon : List Char → List (List Char)
  | [] => [[]]
  | ch :: cs =>
    match splitColon cs with
    | [] => [[]]
    | g :: gs => if ch = ':' then [] :: g :: gs else (ch :: g) :: gs

/-- The port component: an integer unless the host is "unix", in which
case the raw socket-path string is kept. -/
inductive PortV where
  | num (n : Int)
  | path (s : String)
  deriving DecidableEq, Repr

/-- The `try` body of `parse_connection_string` (lines 58-62): unpack
exactly three colon-separated fields, convert port (unless unix) and db
with `int`; `none` when the body raises ValueError. -/
def parseConnTry (constring : String) : Option (String × PortV × Int) :=
  match (splitColon constring.data).map (fun g => (⟨g⟩ : String)) with
  | [host, port, db] =>
    match (if host = "unix" then some (PortV.path port)
           else (pyInt port).map PortV.num) with
    | none => none
    | some pv =>
      match pyInt db with
      | none => none
      | some dbv => some (host, pv, dbv)
  | _ => none

/-- `DefaultClient.parse_connection_string` (lines 53-64): the `except`
handler is meant to raise ImproperlyConfigured, but it interpolates the
undefined name `connection_string` (the parameter is `constring`), so
evaluating the handler raises NameError instead. -/
def parse_connection_string (constring : String) :
    Except PyErr (String × PortV × Int) :=
  match parseConnTry constring with
  | some r => .ok r
  | none => .error .nameError

/-- The client OPTIONS relevant here: the raw PICKLE_VERSION entry when
present. -/
structure Params where
  pickle_version : Option String

/-- `DefaultClient.setup_pickle_version` (lines 91-96). -/
def setup_pickle_version (params : Params) : Except PyErr Int :=
  match params.pickle_version with
  | none => .ok (-1)
  | some s =>
    match pyInt s with
    | some n => .ok n
    | none => .error .improperlyConfigured

/-- The instance attributes `DefaultClient.__init__` assigns
(lines 32-42). -/
inductive Attr where
  | pickleVersion | backend | server | params | options | nodes | ring
  deriving DecidableEq, Repr

def defaultClientAttrs : List Attr :=
  [.pickleVersion, .backend, .server, .params, .options]

/-- Python attribute read: AttributeError when never assigned. -/
def getattrE (attrs : List Attr) (a : Attr) : Except PyErr Unit :=
  if a ∈ attrs then .ok () else .error .attributeError

/-- `DefaultClient.__init__`: reject an empty connection string, then
parse PICKLE_VERSION; the connection string itself is parsed only later,
on first connection use. Returns the assigned attributes and the pickle
version. -/
def DefaultClient.init (server : String) (params : Params) :
    Except PyErr (List Attr × Int) :=
  if server = "" then .error .improperlyConfigured
  else
    match setup_pickle_version params with
    | .error e => .error e
    | .ok pv => .ok (defaultClientAttrs, pv)

/-- C8: the intended ImproperlyConfigured cases do raise it — empty
server at construction, non-integer PICKLE_VERSION — but a malformed
connection string makes the except handler itself crash with NameError
(the undefined name `connection_string`), and only on first connection
use, not at construction; well-formed strings parse. -/
theorem configuration_error_bug :
    parse_connection_string "localhost:abc:0" = .error .nameError ∧
    parse_connection_string "nocolons" = .error .nameError ∧
    parse_connection_string "h:1:2:3" = .error .nameError ∧
    PyErr.nameError ≠ PyErr.improperlyConfigured ∧
    DefaultClient.init "" ⟨none⟩ = .error .improperlyConfigured ∧
    DefaultClient.init "localhost:6379:0" ⟨some "notanint"⟩ =
      .error .improperlyConfigured ∧
    DefaultClient.init "localhost:6379:0" ⟨none⟩ =
      .ok (defaultClientAttrs, -1) ∧
    parse_connection_string "localhost:6379:0" =
      .ok ("localhost", .num 6379, 0) ∧
    parse_connection_string "unix:/tmp/redis.sock:0" =
      .ok ("unix", .path "/tmp/redis.sock", 0) := by
  refine ⟨rfl, rfl, rfl, by decide, rfl, rfl, rfl, rfl, rfl⟩

/-! ## C9 — `close` and the cached client handle -/

/-- The client-handle state of a `DefaultClient`: the cached `_client`
attribute (a connection handle id) if set, a counter of fresh handles
(`connect()` construction is the external transport collaborator of spec
section 6, modelled as always yielding a fresh handle), and the handles
whose `close()` ran. -/
structure CState where
  cached : Option Nat
  nextId : Nat
  closed : List Nat
  deriving DecidableEq, Repr

/-- The lazy `client` property (lines 44-51): return the cached handle,
or connect, cache and return a fresh one. -/
def clientProp (s : CState) : Nat × CState :=
  match s.cached with
  | some h => (h, s)
  | none => (s.nextId, { s with cached := some s.nextId, nextId := s.nextId + 1 })

/-- `DefaultClient.close` (lines 370-372): `self.client.close()` then
`del self._client` (AttributeError if the attribute were absent — it
never is, because the property just cached it). -/
def DefaultClient.close (s : CState) : Except PyErr CState :=
  match clientProp s with
  | (h, s1) =>
    let s2 := { s1 with closed := s1.closed ++ [h] }
    match s2.cached with
    | some _ => .ok { s2 with cached := none }
    | none => .error .attributeError

/-- C9 counterexample: from a state with a cached live handle, the first
`close` closes it and removes the cache — the claim's premise — yet the
second `close` succeeds (it lazily opens handle 1 and closes it) instead
of failing. -/
theorem close_twice_counterexample :
    DefaultClient.close ⟨some 0, 1, []⟩ = .ok ⟨none, 1, [0]⟩ ∧
    DefaultClient.close ⟨none, 1, [0]⟩ = .ok ⟨none, 2, [0, 1]⟩ := by
  exact ⟨rfl, rfl⟩

/-- C9 amended: `close` never fails.  After a close the cached handle is
gone, and a repeated `close` is not a no-op but still succeeds: the lazy
`client` property transparently creates a fresh connection, which is then
closed and uncached again. -/
theorem close_not_idempotent_but_total (s : CState) :
    (∀ h, s.cached = some h →
      DefaultClient.close s = .ok ⟨none, s.nextId, s.closed ++ [h]⟩) ∧
    (s.cached = none →
      DefaultClient.close s = .ok ⟨none, s.nextId + 1, s.closed ++ [s.nextId]⟩) := by
  constructor
  · intro h hc
    simp [DefaultClient.close, clientProp, hc]
  · intro hc
    simp [DefaultClient.close, clientProp, hc]

/-- C9 witness: both branches of the amended statement at concrete
states. -/
theorem close_not_idempotent_but_total_witness :
    DefaultClient.close ⟨some 5, 6, [2]⟩ = .ok ⟨none, 6, [2, 5]⟩ ∧
    DefaultClient.close ⟨none, 7, [2, 5]⟩ = .ok ⟨none, 8, [2, 5, 7]⟩ := by
  exact ⟨(close_not_idempotent_but_total ⟨some 5, 6, [2]⟩).1 5 rfl,
    (close_not_idempotent_but_total ⟨none, 7, [2, 5]⟩).2 rfl⟩

/-! ## C10 — `ShardClient` construction -/

/-- `ShardClient.__init__` (lines 706-708): run the base constructor,
then build the ring from `self._nodes` — an attribute no code path in
`ShardClient` or `DefaultClient` ever assigns, hence the `getattrE`
read. -/
def ShardClient.init (server : String) (params : Params) :
    Except PyErr (List Attr) :=
  match DefaultClient.init server params with
  | .error e => .error e
  | .ok (attrs, _) =>
    match getattrE attrs .nodes with
    | .error e => .error e
    | .ok _ => .ok (attrs ++ [.ring])

/-- C10 counterexample: with a non-empty server but a non-integer
PICKLE_VERSION option, construction fails with ImproperlyConfigured from
the base constructor, not with an AttributeError as the claim states. -/
theorem shard_init_counterexample :
    ShardClient.init "localhost:6379:0" ⟨some "x"⟩ =
      .error .improperlyConfigured ∧
    PyErr.improperlyConfigured ≠ PyErr.attributeError := by
  exact ⟨rfl, by decide⟩

/-- C10 amended: constructing a `ShardClient` with a non-empty server
never succeeds: it raises ImproperlyConfigured when the base constructor
rejects a non-integer PICKLE_VERSION, and otherwise always raises
AttributeError reading the never-assigned `self._nodes`, before any cache
operation is possible. -/
theorem shard_init_never_succeeds (server : String) (params : Params)
    (hs : server ≠ "") :
    (∃ e, ShardClient.init server params = .error e) ∧
    (∀ s, params.pickle_version = some s → (pyInt s).isSome = false →
      ShardClient.init server params = .error .improperlyConfigured) ∧
    ((∀ s, params.pickle_version = some s → (pyInt s).isSome = true) →
      ShardClient.init server params = .error .attributeError) := by
  refine ⟨?_, ?_, ?_⟩
  · match h1 : setup_pickle_version params with
    | .error e =>
      exact ⟨e, by simp [ShardClient.init, DefaultClient.init, hs, h1]⟩
    | .ok pv =>
      exact ⟨.attributeError, by
        simp [ShardClient.init, DefaultClient.init, hs, h1, getattrE,
          defaultClientAttrs]⟩
  · intro s hsv hbad
    have h2 : pyInt s = none := by
      cases h3 : pyInt s
      · rfl
      · rw [h3] at hbad; cases hbad
    have h1 : setup_pickle_version params = .error .improperlyConfigured := by
      simp [setup_pickle_version, hsv, h2]
    simp [ShardClient.init, DefaultClient.init, hs, h1]
  · intro hgood
    have h1 : ∃ pv, setup_pickle_version params = .ok pv := by
      match h2 : params.pickle_version with
      | none => exact ⟨-1, by simp [setup_pickle_version, h2]⟩
      | some s =>
        match h3 : pyInt s with
        | some n => exact ⟨n, by simp [setup_pickle_version, h2, h3]⟩
        | none =>
          have h4 := hgood s h2
          rw [h3] at h4
          simp at h4
    obtain ⟨pv, h1⟩ := h1
    simp [ShardClient.init, DefaultClient.init, hs, h1, getattrE,
      defaultClientAttrs]

/-- C10 witness: both failure shapes at concrete inputs. -/
theorem shard_init_never_succeeds_witness :
    ShardClient.init "localhost:6379:0" ⟨none⟩ = .error .attributeError ∧
    ShardClient.init "localhost:6379:0" ⟨some "2.5"⟩ =
      .error .improperlyConfigured := by
  constructor
  · exact (shard_init_never_succeeds "localhost:6379:0" ⟨none⟩
      (by decide)).2.2 (by intro s h; cases h)
  · exact (shard_init_never_succeeds "localhost:6379:0" ⟨some "2.5"⟩
      (by decide)).2.1 "2.5" rfl (by rfl)
